import Mathlib

/-!
Verification development for the microglia quantification pipeline
(analyze_glia.py, Microglia Quantification v9.2).

Shallow embedding conventions: calibrated areas and lengths that the
script reads from ImageJ results tables are modelled over the rationals
where only ordering and arithmetic on them matter, and over the reals for
the shape index RI, which involves pi and a square root. External
ImageJ/Fiji commands are modelled by the contracts the script relies on;
the orchestration, constants, guards and assertions are translated
directly from the script.
-/

/-- Minimum size of nucleus in cell, in calibrated area units
(analyze_glia.py line 66). -/
def NUCLEUS_INTERSECTION_WITH_CELL : ℚ := 15

/-- Minimum 2D particle area, calibrated units (line 67). -/
def MICROGLIA_MIN_SIZE : ℚ := 20

/-- Minimum 3D component size in voxels (line 68). -/
def MICROGLIA_MIN_SIZE_3D : Nat := 10

/-- Maximum 2D particle area, calibrated units (line 69). -/
def MICROGLIA_MAX_SIZE : ℚ := 500

/-- The constant pi imported by the script (from math import pi as PI, line 52). -/
noncomputable def PI : ℝ := Real.pi

/-- A skeleton tree produced by SkeletonConverter.getTrees: nodes is the
number of graph nodes (the length of tree.list in the script), edges the
list of calibrated edge lengths of the tree. -/
structure SkelTree where
  nodes : Nat
  edges : List ℚ
deriving DecidableEq

/-- Cable length metric of a single tree, the TreeAnalyzer metric named
Cable length: the sum of the edge lengths of that tree. -/
def cableLengthOf (t : SkelTree) : ℚ := t.edges.sum

/-- Maximum pixel value of the cropped image, as queried by
cropped.getRawStatistics with field max in get_cable_length (line 83).
Pixel values are nonnegative intensities, so the fold starts at 0 and the
result is 0 exactly when the crop has no foreground pixel. -/
def maxStat (crop : List Nat) : Nat := crop.foldr max 0

/-- Python max over the node counts of the trees (line 92); for a
nonempty list the fold equals the Python maximum. -/
def maxTreeLen (trees : List SkelTree) : Nat :=
  (trees.map (fun t => t.nodes)).foldr max 0

/-- Tree selection of get_cable_length lines 88-94: the first tree when
there is a single tree, otherwise the first tree whose node count equals
the maximum node count, mirroring next over the generator that compares
max_tree_len with the node count of each tree. -/
def selectTree (t : SkelTree) (ts : List SkelTree) : Option SkelTree :=
  if ts = [] then some t
  else (t :: ts).find? (fun x => maxTreeLen (t :: ts) == x.nodes)

/-- Embedding of get_cable_length (lines 73-99): cable length 0 when the
crop has no foreground pixel, otherwise the cable length of the selected
tree; none models the IndexError that indexing trees at 0 would raise on
an empty tree list, unreachable under the SkeletonConverter contract. -/
def get_cable_length (crop : List Nat) (trees : List SkelTree) : Option ℚ :=
  if 0 < maxStat crop then
    match trees with
    | [] => none
    | t :: ts => (selectTree t ts).map cableLengthOf
  else some 0

/-- One row of the ImageJ results table as read in the measurement loop:
the Area and Perim columns (lines 262-263), in calibrated units. -/
structure MeasRow where
  area : ℝ
  perimeter : ℝ

/-- An ROI surviving to the measurement stage, together with the data its
skeleton analysis depends on: its calibrated area and perimeter, the
pixel values of the membrane mask cropped to the ROI, and the skeleton
trees the converter extracts from that crop. -/
structure Roi where
  area : ℝ
  perimeter : ℝ
  crop : List Nat
  trees : List SkelTree

/-- Shape index formula of line 264:
ri = perimeter / area / (2 * sqrt(PI / area)). -/
noncomputable def RI (perimeter area : ℝ) : ℝ :=
  perimeter / area / (2 * Real.sqrt (PI / area))

/-- Failure modes of the measurement loop: the Jython ZeroDivisionError
raised by perimeter / area when area is 0 (line 264); the assertion that
ri is at least 1 (line 265); the assertion that the results table size
equals the ROI manager count (line 267); IndexError for an out of range
access. -/
inductive MeasureError where
  | zeroDivision
  | assertRiFailed
  | assertRowCount
  | indexError
deriving DecidableEq

/-- Contract of rm.runCommand Measure (line 255) after Clear Results: one
results row per ROI in the manager, in order, carrying the calibrated
Area and Perim of that ROI. -/
def measureCmd (rois : List Roi) : List MeasRow :=
  rois.map (fun r => MeasRow.mk r.area r.perimeter)

/-- Embedding of the measurement loop of main (lines 261-271). For each
results row: read perimeter and area, compute ri, which raises
ZeroDivisionError when area is 0, assert ri is at least 1, record ri,
assert that the total results size equals the total ROI count, then
compute the cable length of the ROI at the same index. -/
noncomputable def measureRows (totalRows totalRois : Nat) :
    List Roi → List MeasRow → Except MeasureError (List (ℝ × ℚ))
  | _, [] => Except.ok []
  | rois, row :: rest =>
    if row.area = 0 then Except.error MeasureError.zeroDivision
    else
      let ri := RI row.perimeter row.area
      if ri < 1 then Except.error MeasureError.assertRiFailed
      else if totalRows = totalRois then
        match rois with
        | [] => Except.error MeasureError.indexError
        | roi :: restRois =>
          match get_cable_length roi.crop roi.trees with
          | none => Except.error MeasureError.indexError
          | some cab =>
            match measureRows totalRows totalRois restRois rest with
            | Except.ok out => Except.ok ((ri, cab) :: out)
            | Except.error e => Except.error e
      else Except.error MeasureError.assertRowCount

/-- Measurement stage of main (lines 251-271): runs only when the ROI
manager is nonempty; with no surviving ROI the measurement table is not
populated at all. -/
noncomputable def measureStage (rois : List Roi) :
    Except MeasureError (List (ℝ × ℚ)) :=
  if 0 < rois.length then
    measureRows (measureCmd rois).length rois.length rois (measureCmd rois)
  else Except.ok []

/-- A 3D connected component of the inverted segmented volume, as handled
by the 3D Objects Counter, the maximum projection and the particle
analysis (lines 192-208): its voxel count, the calibrated area of its 2D
projection, and whether the projected component touches the image
border. -/
structure Comp3D where
  voxels : Nat
  projArea : ℚ
  touchesBorder : Bool
deriving DecidableEq

/-- 3D size floor of the 3D Objects Counter call (lines 194-195): keep
components whose voxel count is at least MICROGLIA_MIN_SIZE_3D, with no
effective upper bound since max is 9999999. -/
def keep3D (c : Comp3D) : Bool := decide (MICROGLIA_MIN_SIZE_3D ≤ c.voxels)

/-- 2D particle filter of the Analyze Particles call (lines 206-207):
size band from MICROGLIA_MIN_SIZE to MICROGLIA_MAX_SIZE in calibrated
units, excluding particles that touch the border, per the exclude
option. -/
def keep2D (c : Comp3D) : Bool :=
  decide (MICROGLIA_MIN_SIZE ≤ c.projArea ∧ c.projArea ≤ MICROGLIA_MAX_SIZE ∧
    c.touchesBorder = false)

/-- Candidate extraction of lines 192-208: 3D size floor, then projection
of the surviving components, then the 2D band filter with border
exclusion. -/
def extractCandidates (cs : List Comp3D) : List Comp3D :=
  (cs.filter keep3D).filter keep2D

/-- A candidate ROI as seen by the nucleus filter on the nuclei window:
area is stats.area, the calibrated ROI area, and areaFraction is
stats.areaFraction, the percentage from 0 to 100 of foreground nucleus
pixels inside the ROI. -/
structure Candidate where
  area : ℚ
  areaFraction : ℚ
deriving DecidableEq

/-- Nucleus overlap of line 225:
sum_nuclei_gray = stats.area * stats.areaFraction / 100. -/
def sum_nuclei_gray (r : Candidate) : ℚ := r.area * r.areaFraction / 100

/-- Index collection loop of lines 218-229: the indexes i, in increasing
order, whose ROI falls below the nucleus intersection threshold. -/
def to_be_deleted (rois : List Candidate) : List Nat :=
  (List.range rois.length).filter (fun i =>
    match rois.get? i with
    | some r => decide (sum_nuclei_gray r < NUCLEUS_INTERSECTION_WITH_CELL)
    | none => false)

/-- Deletion of the selected indexes, setSelectedIndexes followed by the
Delete command (lines 232-233): the ROIs at the listed positions are
removed and the order of the others is preserved. -/
def deleteIndices (rois : List Candidate) (idxs : List Nat) : List Candidate :=
  (List.range rois.length).filterMap (fun i =>
    if i ∈ idxs then none else rois.get? i)

/-- Nucleus filter stage of lines 217-233, run only when the manager
holds at least one ROI. -/
def nucleusFilterStage (rois : List Candidate) : List Candidate :=
  if 0 < rois.length then deleteIndices rois (to_be_deleted rois) else rois

/-- Keep predicate equivalent to surviving the nucleus filter: the
overlap is not below the threshold. -/
def keepCandidate (r : Candidate) : Bool :=
  !(decide (sum_nuclei_gray r < NUCLEUS_INTERSECTION_WITH_CELL))

/-- One data row of a persisted per image CSV: the Label column, copied
verbatim by getLabel during aggregation, and the numeric columns. -/
structure CsvRow where
  label : String
  vals : List ℚ
deriving DecidableEq

/-- Modelled from the spec: the trailing aggregate row appended by the
external Summarize command (line 329), which the spec describes as
appending a final aggregate row; modelled as column wise means of the
data rows. Its contents are outside the script. -/
def aggregateRow (rows : List CsvRow) : CsvRow :=
  CsvRow.mk "Summary"
    ((List.range ((rows.map (fun r => r.vals.length)).foldr max 0)).map
      (fun j => (rows.map (fun r => r.vals.getD j 0)).sum / rows.length))

/-- Per image CSV persistence (lines 251-278): the CSV is written only
when the ROI manager holds at least one ROI after filtering and editing;
otherwise no CSV file is produced for the image. -/
def savedCsv (roiCount : Nat) (rows : List CsvRow) : Option (List CsvRow) :=
  if 0 < roiCount then some rows else none

/-- Folder aggregation loop (lines 309-327): walk the per image CSVs in
file order, silently skipping files for which no CSV exists, per the
os.path.isfile check with continue on line 315, and append every row of
every opened CSV to the results, copying its label verbatim
(line 322). -/
def folderDataRows (csvs : List (Option (List CsvRow))) : List CsvRow :=
  csvs.foldl (fun acc o =>
    match o with
    | some t => acc ++ t
    | none => acc) []

/-- Folder summary (lines 306-329): the concatenated data rows followed
by the aggregate row appended by Summarize. -/
def folderSummary (csvs : List (Option (List CsvRow))) : List CsvRow :=
  folderDataRows csvs ++ [aggregateRow (folderDataRows csvs)]

/-- Concrete per image table with three rows for the aggregation
examples. Labels are the measurement labels the script produces: the
fixed window title microglia_mask plus the default ROI name, with no
source file component. -/
def exT1 : List CsvRow :=
  [CsvRow.mk "microglia_mask:0288-0145" [100, 40, 2, 35],
   CsvRow.mk "microglia_mask:0100-0200" [50, 30, 2, 20],
   CsvRow.mk "microglia_mask:0150-0250" [60, 32, 2, 22]]

/-- Concrete per image table with two rows, produced from a different
source file but sharing its first label with exT1, as happens when ROIs
in two images get the same default name. -/
def exT2 : List CsvRow :=
  [CsvRow.mk "microglia_mask:0288-0145" [100, 40, 2, 35],
   CsvRow.mk "microglia_mask:0300-0310" [70, 33, 2, 25]]

/-- A file of the input folder: its name and whether the Bio-Formats
importer opens at least one image from it, that is whether
WindowManager.getImageCount is positive after opening (line 143). -/
structure ImageFile where
  name : String
  loadsOk : Bool
deriving DecidableEq

/-- Python endswith on file names, as a suffix test on the character
lists of the strings. -/
def strEndsWith (s suffix : String) : Bool := suffix.data.isSuffixOf s.data

/-- Extension whitelist of lines 134 and 310: nd2 or tif. -/
def isImageName (s : String) : Bool := strEndsWith s ".nd2" || strEndsWith s ".tif"

/-- Image files of a folder listing, in order: the files passing the
extension whitelist. -/
def imageFiles (files : List ImageFile) : List ImageFile :=
  files.filter (fun g => isImageName g.name)

/-- Names of the image files of a folder listing, in order. -/
def imageNames (files : List ImageFile) : List String :=
  (imageFiles files).map (fun g => g.name)

/-- Counters observed along a batch run: how many times the membrane
model existence assertion of line 172 ran, how many classifier
invocations of line 174 ran, and the names of fully processed images. -/
structure BatchTrace where
  modelChecks : Nat
  classifications : Nat
  processed : List String
deriving DecidableEq

/-- Abort reasons of the batch loop: the failed image open, surfaced by
showMessage and exit on lines 144-146, or the failed model existence
assertion of line 172. -/
inductive BatchError where
  | loadFailed (name : String)
  | modelMissing
deriving DecidableEq

/-- Trace at the start of a run. -/
def initTrace : BatchTrace := BatchTrace.mk 0 0 []

/-- Embedding of the per image loop of main (lines 131-303) at the
granularity the batch claims need: extension filter with continue, image
open with whole run abort on failure, then the per image model existence
assertion followed by the classifier invocation; the rest of the per
image work is summarised by recording the file as processed. -/
def runBatch (modelExists : Bool) :
    List ImageFile → BatchTrace → BatchTrace × Option BatchError
  | [], tr => (tr, none)
  | f :: fs, tr =>
    if isImageName f.name then
      if f.loadsOk then
        if modelExists then
          runBatch modelExists fs
            (BatchTrace.mk (tr.modelChecks + 1) (tr.classifications + 1)
              (tr.processed ++ [f.name]))
        else
          (BatchTrace.mk (tr.modelChecks + 1) tr.classifications tr.processed,
            some BatchError.modelMissing)
      else (tr, some (BatchError.loadFailed f.name))
    else runBatch modelExists fs tr

/-- Concrete skeleton tree with 3 nodes and total edge length 5. -/
def exTreeA : SkelTree := SkelTree.mk 3 [2, 3]

/-- Concrete skeleton tree with 5 nodes and total edge length 7. -/
def exTreeB : SkelTree := SkelTree.mk 5 [7]

/-- Concrete ROI with the area and perimeter of a circle of radius 1, an
all background crop and no skeleton tree. -/
noncomputable def exRoi : Roi := Roi.mk PI (2 * PI) [0] []

/-- Concrete candidate with nucleus overlap 100 * 50 / 100 = 50, above
the threshold. -/
def exCandA : Candidate := Candidate.mk 100 50

/-- Concrete candidate with nucleus overlap 100 * 5 / 100 = 5, below the
threshold. -/
def exCandB : Candidate := Candidate.mk 100 5

/-- Concrete 3D component of 5 voxels, below the 3D floor, projecting to
area 300. -/
def exSmall : Comp3D := Comp3D.mk 5 300 false

/-- Concrete 3D component of 50 voxels projecting to area 300, inside
the 2D band and away from the border. -/
def exBig : Comp3D := Comp3D.mk 50 300 false

/-- Concrete folder entries. -/
def exGood : ImageFile := ImageFile.mk "a.tif" true

/-- A second loadable image file. -/
def exB : ImageFile := ImageFile.mk "b.tif" true

/-- An image file from which zero images open. -/
def exBad : ImageFile := ImageFile.mk "bad.nd2" false

/-- An image file listed after the corrupt one. -/
def exAfter : ImageFile := ImageFile.mk "c.tif" true

/-- A folder entry filtered out by the extension whitelist. -/
def exDoc : ImageFile := ImageFile.mk "notes.txt" true

/-! ### Skeleton analysis lemmas -/

lemma maxTreeLen_cons (t : SkelTree) (ts : List SkelTree) :
    maxTreeLen (t :: ts) = max t.nodes (maxTreeLen ts) := rfl

lemma maxTreeLen_attained : ∀ (l : List SkelTree), l ≠ [] →
    ∃ x ∈ l, x.nodes = maxTreeLen l := by
  intro l
  induction l with
  | nil => intro h; exact absurd rfl h
  | cons a l ih =>
    intro _
    cases l with
    | nil =>
      refine ⟨a, List.mem_singleton_self a, ?_⟩
      rw [maxTreeLen_cons]
      simp [maxTreeLen]
    | cons b m =>
      rcases le_total (maxTreeLen (b :: m)) a.nodes with h | h
      · exact ⟨a, List.mem_cons_self a _, by rw [maxTreeLen_cons, Nat.max_eq_left h]⟩
      · obtain ⟨x, hx, hxe⟩ := ih (by simp)
        refine ⟨x, List.mem_cons_of_mem a hx, ?_⟩
        rw [maxTreeLen_cons, Nat.max_eq_right h, hxe]

lemma selectTree_spec (t : SkelTree) (ts : List SkelTree) :
    ∃ u l1 l2, selectTree t ts = some u ∧ t :: ts = l1 ++ u :: l2 ∧
      u.nodes = maxTreeLen (t :: ts) ∧
      ∀ v ∈ l1, v.nodes ≠ maxTreeLen (t :: ts) := by
  cases ts with
  | nil =>
    refine ⟨t, [], [], rfl, rfl, ?_, by simp⟩
    rw [maxTreeLen_cons]
    simp [maxTreeLen]
  | cons s ss =>
    have hne : (t :: s :: ss) ≠ [] := by simp
    obtain ⟨x, hx, hxe⟩ := maxTreeLen_attained _ hne
    have hsel : selectTree t (s :: ss) =
        (t :: s :: ss).find? (fun y => maxTreeLen (t :: s :: ss) == y.nodes) := by
      simp [selectTree]
    have hsome :
        ((t :: s :: ss).find? (fun y => maxTreeLen (t :: s :: ss) == y.nodes)).isSome := by
      rw [List.find?_isSome]
      exact ⟨x, hx, by simp [hxe]⟩
    obtain ⟨u, hu⟩ := Option.isSome_iff_exists.mp hsome
    obtain ⟨hpu, as, bs, hdec, hprev⟩ := List.find?_eq_some.mp hu
    refine ⟨u, as, bs, by rw [hsel, hu], hdec, ?_, ?_⟩
    · have hpu2 : (maxTreeLen (t :: s :: ss) == u.nodes) = true := hpu
      exact (beq_iff_eq.mp hpu2).symm
    · intro v hv
      have := hprev v hv
      rw [Bool.not_eq_eq_eq_not, Bool.not_true] at this
      intro hcontra
      rw [hcontra] at this
      simp at this

lemma get_cable_length_isSome (crop : List Nat) (trees : List SkelTree)
    (h : maxStat crop = 0 ∨ trees ≠ []) :
    ∃ c, get_cable_length crop trees = some c := by
  by_cases hfg : 0 < maxStat crop
  · rcases h with h0 | hne
    · omega
    · cases trees with
      | nil => exact absurd rfl hne
      | cons t ts =>
        obtain ⟨u, l1, l2, hsel, _, _, _⟩ := selectTree_spec t ts
        exact ⟨cableLengthOf u, by simp [get_cable_length, if_pos hfg, hsel]⟩
  · exact ⟨0, by simp [get_cable_length, if_neg hfg]⟩

/-- Claim C5: when the skeleton of a cropped mask yields several trees,
the cable length of get_cable_length is the sum of edge lengths of only
the first tree attaining the maximal node count; and an all background
crop yields cable length exactly 0 without error, whatever the trees. -/
theorem C5_cable_length_selection :
    (∀ (crop : List Nat) (trees : List SkelTree), maxStat crop = 0 →
      get_cable_length crop trees = some 0) ∧
    (∀ (crop : List Nat) (t : SkelTree) (ts : List SkelTree), 0 < maxStat crop →
      ∃ u l1 l2,
        get_cable_length crop (t :: ts) = some (cableLengthOf u) ∧
        t :: ts = l1 ++ u :: l2 ∧
        u.nodes = maxTreeLen (t :: ts) ∧
        ∀ v ∈ l1, v.nodes ≠ maxTreeLen (t :: ts)) := by
  constructor
  · intro crop trees h0
    have hneg : ¬ 0 < maxStat crop := by omega
    simp [get_cable_length, if_neg hneg]
  · intro crop t ts hfg
    obtain ⟨u, l1, l2, hsel, hdec, hmax, hprev⟩ := selectTree_spec t ts
    exact ⟨u, l1, l2, by simp [get_cable_length, if_pos hfg, hsel], hdec, hmax, hprev⟩

/-- Witness for C5 at concrete inputs: an empty crop gives cable length
0, and a crop with foreground and two trees selects the larger tree. -/
theorem C5_cable_length_selection_witness :
    get_cable_length [] [exTreeA] = some 0 ∧
    (∃ u l1 l2,
      get_cable_length [1] (exTreeA :: [exTreeB]) = some (cableLengthOf u) ∧
      exTreeA :: [exTreeB] = l1 ++ u :: l2 ∧
      u.nodes = maxTreeLen (exTreeA :: [exTreeB]) ∧
      ∀ v ∈ l1, v.nodes ≠ maxTreeLen (exTreeA :: [exTreeB])) :=
  ⟨C5_cable_length_selection.1 [] [exTreeA] rfl,
   C5_cable_length_selection.2 [1] exTreeA [exTreeB] (by decide)⟩

/-! ### Shape index lemmas -/

lemma PI_pos : 0 < PI := Real.pi_pos

lemma PI_ne_zero : PI ≠ 0 := Real.pi_ne_zero

lemma RI_eq_div (p a : ℝ) : RI p a = p / (a * (2 * Real.sqrt (PI / a))) := by
  unfold RI
  rw [div_div]

lemma RI_denom_sq (a : ℝ) (ha : 0 < a) :
    (a * (2 * Real.sqrt (PI / a))) ^ 2 = 4 * PI * a := by
  have hpa : 0 ≤ PI / a := div_nonneg PI_pos.le ha.le
  have hs : Real.sqrt (PI / a) ^ 2 = PI / a := Real.sq_sqrt hpa
  calc (a * (2 * Real.sqrt (PI / a))) ^ 2
      = 4 * a ^ 2 * Real.sqrt (PI / a) ^ 2 := by ring
    _ = 4 * a ^ 2 * (PI / a) := by rw [hs]
    _ = 4 * PI * a := by
        field_simp
        ring

lemma RI_ge_one (p a : ℝ) (ha : 0 < a) (hp : 0 ≤ p)
    (hiso : 4 * PI * a ≤ p ^ 2) : 1 ≤ RI p a := by
  have hs : 0 < Real.sqrt (PI / a) := Real.sqrt_pos.mpr (div_pos PI_pos ha)
  have hdpos : 0 < a * (2 * Real.sqrt (PI / a)) :=
    mul_pos ha (mul_pos two_pos hs)
  have hdp : a * (2 * Real.sqrt (PI / a)) ≤ p := by
    have h1 : Real.sqrt ((a * (2 * Real.sqrt (PI / a))) ^ 2) ≤ Real.sqrt (p ^ 2) :=
      Real.sqrt_le_sqrt (by rw [RI_denom_sq a ha]; exact hiso)
    rwa [Real.sqrt_sq hdpos.le, Real.sqrt_sq hp] at h1
  rw [RI_eq_div]
  exact (one_le_div hdpos).mpr hdp

lemma RI_two_pi_pi : RI (2 * PI) PI = 1 := by
  unfold RI
  rw [div_self PI_ne_zero, Real.sqrt_one, mul_one, mul_div_assoc,
    div_self PI_ne_zero, mul_one]
  norm_num

lemma RI_pi_pi : RI PI PI = 1 / 2 := by
  unfold RI
  rw [div_self PI_ne_zero, Real.sqrt_one, mul_one]

/-- Claim C1: for a measured ROI whose contour is a simple closed curve,
expressed by the isoperimetric inequality 4 pi area at most perimeter
squared together with a nonnegative perimeter, and whose area is
positive, the RI of line 264 is at least 1; and an RI below 1 makes the
measurement loop fail loudly with the assertion error of line 265
instead of being clamped. -/
theorem C1_ri_lower_bound :
    (∀ p a : ℝ, 0 < a → 0 ≤ p → 4 * PI * a ≤ p ^ 2 → 1 ≤ RI p a) ∧
    (∀ (row : MeasRow) (rest : List MeasRow) (rois : List Roi)
      (totalRows totalRois : Nat),
      ¬ row.area = 0 → RI row.perimeter row.area < 1 →
      measureRows totalRows totalRois rois (row :: rest) =
        Except.error MeasureError.assertRiFailed) := by
  constructor
  · exact fun p a ha hp hiso => RI_ge_one p a ha hp hiso
  · intro row rest rois tR tRo hne hlt
    simp only [measureRows]
    rw [if_neg hne, if_pos hlt]

/-- Witness for C1: the circle of radius 1 has area pi and perimeter
2 pi, attains RI 1, and a row with perimeter and area both pi has RI one
half and trips the assertion. -/
theorem C1_ri_lower_bound_witness :
    1 ≤ RI (2 * PI) PI ∧
    measureRows 1 1 [] [MeasRow.mk PI PI] =
      Except.error MeasureError.assertRiFailed :=
  ⟨C1_ri_lower_bound.1 (2 * PI) PI PI_pos (by have := PI_pos; linarith)
      (le_of_eq (by ring)),
   C1_ri_lower_bound.2 (MeasRow.mk PI PI) [] [] 1 1 PI_ne_zero
      (by show RI PI PI < 1; rw [RI_pi_pi]; norm_num)⟩

/-- Claim C2, recording the code bug: a results row with area 0 is not
skipped by the measurement loop of lines 261-271; the division
perimeter / area is reached unguarded and the loop aborts with the
Jython ZeroDivisionError, crashing the batch. -/
theorem C2_area_zero_crashes :
    measureRows 1 1 [] [MeasRow.mk 0 5] =
      Except.error MeasureError.zeroDivision := by
  simp [measureRows]

/-! ### Measurement stage lemmas -/

lemma measureRows_ok (n : Nat) : ∀ (rois : List Roi),
    (∀ r ∈ rois, r.area ≠ 0) →
    (∀ r ∈ rois, ¬ RI r.perimeter r.area < 1) →
    (∀ r ∈ rois, maxStat r.crop = 0 ∨ r.trees ≠ []) →
    ∃ out, measureRows n n rois (measureCmd rois) = Except.ok out ∧
      out.length = rois.length := by
  intro rois
  induction rois with
  | nil => intro _ _ _; exact ⟨[], rfl, rfl⟩
  | cons r rs ih =>
    intro h1 h2 h3
    obtain ⟨out, hout, hlen⟩ := ih
      (fun x hx => h1 x (List.mem_cons_of_mem r hx))
      (fun x hx => h2 x (List.mem_cons_of_mem r hx))
      (fun x hx => h3 x (List.mem_cons_of_mem r hx))
    obtain ⟨c, hc⟩ := get_cable_length_isSome r.crop r.trees
      (h3 r (List.mem_cons_self r rs))
    have ha : r.area ≠ 0 := h1 r (List.mem_cons_self r rs)
    have hri : ¬ RI r.perimeter r.area < 1 := h2 r (List.mem_cons_self r rs)
    refine ⟨(RI r.perimeter r.area, c) :: out, ?_, by simp [hlen]⟩
    simp only [measureCmd] at hout ⊢
    simp only [List.map_cons]
    simp [measureRows, ha, hri, hc, hout]

/-- Claim C4: with at least one surviving ROI, the measurement stage
produces exactly one row per surviving ROI, under the conditions that
make each row measurable, namely nonzero area, RI at least 1 and a crop
that is empty or yields at least one skeleton tree; and whenever the
results table size diverges from the ROI count, the loop fails loudly
with the assertion error of line 267, not a warning. -/
theorem C4_row_roi_alignment :
    (∀ rois : List Roi, rois ≠ [] →
      (∀ r ∈ rois, r.area ≠ 0) →
      (∀ r ∈ rois, ¬ RI r.perimeter r.area < 1) →
      (∀ r ∈ rois, maxStat r.crop = 0 ∨ r.trees ≠ []) →
      ∃ out, measureStage rois = Except.ok out ∧ out.length = rois.length) ∧
    (∀ (totalRows totalRois : Nat) (rois : List Roi) (row : MeasRow)
      (rest : List MeasRow), totalRows ≠ totalRois → row.area ≠ 0 →
      ¬ RI row.perimeter row.area < 1 →
      measureRows totalRows totalRois rois (row :: rest) =
        Except.error MeasureError.assertRowCount) := by
  constructor
  · intro rois hne h1 h2 h3
    have hpos : 0 < rois.length := List.length_pos.mpr hne
    have hl : (measureCmd rois).length = rois.length := by simp [measureCmd]
    unfold measureStage
    rw [if_pos hpos, hl]
    exact measureRows_ok rois.length rois h1 h2 h3
  · intro tR tRo rois row rest hne ha hri
    simp [measureRows, ha, hri, hne]

/-- Witness for C4: one surviving ROI, the unit circle, yields one
measurement row; and a divergent row and ROI count of 2 versus 1 aborts
with the row count assertion. -/
theorem C4_row_roi_alignment_witness :
    (∃ out, measureStage [exRoi] = Except.ok out ∧
      out.length = [exRoi].length) ∧
    measureRows 2 1 [] [MeasRow.mk PI (2 * PI)] =
      Except.error MeasureError.assertRowCount :=
  ⟨C4_row_roi_alignment.1 [exRoi] (by simp)
      (by intro r hr; rw [List.mem_singleton] at hr; subst hr
          show PI ≠ 0; exact PI_ne_zero)
      (by intro r hr; rw [List.mem_singleton] at hr; subst hr
          show ¬ RI (2 * PI) PI < 1; rw [RI_two_pi_pi]; norm_num)
      (by intro r hr; rw [List.mem_singleton] at hr; subst hr
          exact Or.inl (by simp [exRoi, maxStat])),
   C4_row_roi_alignment.2 2 1 [] (MeasRow.mk PI (2 * PI)) [] (by omega)
      PI_ne_zero
      (by show ¬ RI (2 * PI) PI < 1; rw [RI_two_pi_pi]; norm_num)⟩

/-! ### Candidate extraction lemmas -/

/-- Claim C6: a 3D component below the 10 voxel floor never appears among
the 2D candidates; and a component at or above the floor that occurs once
in the component list appears among the candidates exactly once if and
only if its projected calibrated area lies in the band from 20 to 500 and
it does not touch the border. -/
theorem C6_size_filters :
    ∀ (cs : List Comp3D) (c : Comp3D),
      (c.voxels < MICROGLIA_MIN_SIZE_3D → c ∉ extractCandidates cs) ∧
      (MICROGLIA_MIN_SIZE_3D ≤ c.voxels → cs.count c = 1 →
        ((extractCandidates cs).count c = 1 ↔
          MICROGLIA_MIN_SIZE ≤ c.projArea ∧ c.projArea ≤ MICROGLIA_MAX_SIZE ∧
            c.touchesBorder = false)) := by
  intro cs c
  constructor
  · intro hsmall hmem
    have h1 : c ∈ cs.filter keep3D :=
      (List.mem_filter.mp hmem).1
    have h2 : keep3D c = true := (List.mem_filter.mp h1).2
    rw [keep3D, decide_eq_true_eq] at h2
    omega
  · intro hbig hcount
    have h3 : keep3D c = true := by rw [keep3D]; exact decide_eq_true hbig
    constructor
    · intro h1
      have hpos : 0 < (extractCandidates cs).count c := by omega
      have hmem : c ∈ extractCandidates cs := List.count_pos_iff.mp hpos
      have h2 : keep2D c = true := (List.mem_filter.mp hmem).2
      rw [keep2D, decide_eq_true_eq] at h2
      exact h2
    · intro hband
      have h2 : keep2D c = true := by rw [keep2D]; exact decide_eq_true hband
      rw [extractCandidates, List.count_filter h2, List.count_filter h3, hcount]

/-- Witness for C6: the 5 voxel component is absent from the candidates
of a concrete component list, and the 50 voxel component with projected
area 300 away from the border appears exactly once. -/
theorem C6_size_filters_witness :
    exSmall ∉ extractCandidates [exSmall, exBig] ∧
    ((extractCandidates [exSmall, exBig]).count exBig = 1 ↔
      MICROGLIA_MIN_SIZE ≤ exBig.projArea ∧ exBig.projArea ≤ MICROGLIA_MAX_SIZE ∧
        exBig.touchesBorder = false) :=
  ⟨(C6_size_filters [exSmall, exBig] exSmall).1 (by decide),
   (C6_size_filters [exSmall, exBig] exBig).2 (by decide) (by decide)⟩

/-! ### Nucleus filter lemmas -/

lemma to_be_deleted_cons (r : Candidate) (rs : List Candidate) :
    to_be_deleted (r :: rs) =
      (if sum_nuclei_gray r < NUCLEUS_INTERSECTION_WITH_CELL then [0] else []) ++
        (to_be_deleted rs).map Nat.succ := by
  unfold to_be_deleted
  rw [List.length_cons, List.range_succ_eq_map rs.length, List.filter_cons,
    List.filter_map Nat.succ (List.range rs.length)]
  by_cases h : sum_nuclei_gray r < NUCLEUS_INTERSECTION_WITH_CELL
  · rw [if_pos h, List.singleton_append]
    split
    · congr 1
    · rename_i hc
      exact absurd (decide_eq_true h) hc
  · rw [if_neg h, List.nil_append]
    split
    · rename_i hc
      exact absurd (of_decide_eq_true hc) h
    · congr 1

lemma zero_mem_to_be_deleted (r : Candidate) (rs : List Candidate) :
    0 ∈ to_be_deleted (r :: rs) ↔
      sum_nuclei_gray r < NUCLEUS_INTERSECTION_WITH_CELL := by
  rw [to_be_deleted_cons]
  by_cases h : sum_nuclei_gray r < NUCLEUS_INTERSECTION_WITH_CELL
  · simp [h]
  · simp [h]

lemma succ_mem_to_be_deleted (r : Candidate) (rs : List Candidate) (i : Nat) :
    Nat.succ i ∈ to_be_deleted (r :: rs) ↔ i ∈ to_be_deleted rs := by
  rw [to_be_deleted_cons]
  by_cases h : sum_nuclei_gray r < NUCLEUS_INTERSECTION_WITH_CELL
  · simp [h]
  · simp [h]

lemma deleteIndices_cons (r : Candidate) (rs : List Candidate) (idxs : List Nat) :
    deleteIndices (r :: rs) idxs =
      (if 0 ∈ idxs then [] else [r]) ++
        List.filterMap (fun i => if Nat.succ i ∈ idxs then none else rs.get? i)
          (List.range rs.length) := by
  unfold deleteIndices
  rw [List.length_cons, List.range_succ_eq_map rs.length]
  simp only [List.filterMap_cons, List.filterMap_map]
  by_cases h0 : 0 ∈ idxs
  · rw [if_pos h0, if_pos h0, List.nil_append]
    exact List.filterMap_congr (fun i _ => rfl)
  · rw [if_neg h0, if_neg h0, List.singleton_append]
    exact congrArg (List.cons r) (List.filterMap_congr (fun i _ => rfl))

lemma deleteIndices_to_be_deleted : ∀ rois : List Candidate,
    deleteIndices rois (to_be_deleted rois) = rois.filter keepCandidate := by
  intro rois
  induction rois with
  | nil => rfl
  | cons r rs ih =>
    rw [deleteIndices_cons, List.filter_cons]
    have htail : List.filterMap
        (fun i => if Nat.succ i ∈ to_be_deleted (r :: rs) then none else rs.get? i)
        (List.range rs.length) = deleteIndices rs (to_be_deleted rs) := by
      unfold deleteIndices
      exact List.filterMap_congr
        (fun i _ => if_congr (succ_mem_to_be_deleted r rs i) rfl rfl)
    rw [htail, ih]
    by_cases h : sum_nuclei_gray r < NUCLEUS_INTERSECTION_WITH_CELL
    · rw [if_pos ((zero_mem_to_be_deleted r rs).mpr h), List.nil_append]
      have hk : keepCandidate r = false := by simp [keepCandidate, h]
      rw [hk]
      simp
    · rw [if_neg (fun hc => h ((zero_mem_to_be_deleted r rs).mp hc)),
        List.singleton_append]
      have hk : keepCandidate r = true := by simp [keepCandidate, h]
      rw [hk]
      simp

/-- Claim C7: the nucleus filter computes the overlap as ROI area times
the foreground fraction of the nucleus mask inside the ROI, discards a
candidate exactly when that overlap is below
NUCLEUS_INTERSECTION_WITH_CELL, and the surviving set is an order
preserving, hence index stable, subset of the input. -/
theorem C7_nucleus_filter :
    ∀ rois : List Candidate,
      nucleusFilterStage rois = rois.filter keepCandidate ∧
      List.Sublist (nucleusFilterStage rois) rois ∧
      ∀ r : Candidate, r ∈ nucleusFilterStage rois ↔
        r ∈ rois ∧ ¬ sum_nuclei_gray r < NUCLEUS_INTERSECTION_WITH_CELL := by
  intro rois
  have heq : nucleusFilterStage rois = rois.filter keepCandidate := by
    unfold nucleusFilterStage
    by_cases h : 0 < rois.length
    · rw [if_pos h]
      exact deleteIndices_to_be_deleted rois
    · rw [if_neg h]
      have hnil : rois = [] := List.length_eq_zero.mp (by omega)
      rw [hnil]
      rfl
  refine ⟨heq, heq ▸ List.filter_sublist rois, ?_⟩
  intro r
  rw [heq, List.mem_filter, keepCandidate]
  simp

/-- Witness for C7 at a concrete candidate pair: one candidate above and
one below the threshold. -/
theorem C7_nucleus_filter_witness :
    nucleusFilterStage [exCandA, exCandB] =
      [exCandA, exCandB].filter keepCandidate ∧
    (exCandB ∈ nucleusFilterStage [exCandA, exCandB] ↔
      exCandB ∈ [exCandA, exCandB] ∧
        ¬ sum_nuclei_gray exCandB < NUCLEUS_INTERSECTION_WITH_CELL) :=
  ⟨(C7_nucleus_filter [exCandA, exCandB]).1,
   (C7_nucleus_filter [exCandA, exCandB]).2.2 exCandB⟩

/-! ### Folder aggregation lemmas -/

/-- Claim C8 counterexample: concatenating a three row and a two row per
image table gives five data rows, but the row arriving at position 0,
from the first file, and the row arriving at position 3, from the second
file, are identical, label included: the labels are copied verbatim from
the per image tables, whose labels come from the fixed window title
microglia_mask and the default ROI name, so rows from different source
files are not distinguishable by any file scoped label. -/
theorem C8_labels_counterexample :
    (folderDataRows [some exT1, some exT2]).length = 5 ∧
    (folderDataRows [some exT1, some exT2]).get? 0 =
      some (CsvRow.mk "microglia_mask:0288-0145" [100, 40, 2, 35]) ∧
    (folderDataRows [some exT1, some exT2]).get? 3 =
      some (CsvRow.mk "microglia_mask:0288-0145" [100, 40, 2, 35]) :=
  ⟨rfl, rfl, rfl⟩

/-- Claim C8 amended: the folder summary is built by reopening every
persisted per image table and concatenating their measurement rows, with
rows copied verbatim, labels included; for tables of three and two rows
the summary holds exactly five data rows plus one trailing aggregate
row. The labels are not file scoped and rows from different source files
need not be distinguishable. -/
theorem C8_folder_aggregation_amended :
    ∀ t1 t2 : List CsvRow, t1.length = 3 → t2.length = 2 →
      folderDataRows [some t1, some t2] = t1 ++ t2 ∧
      (folderDataRows [some t1, some t2]).length = 5 ∧
      (folderSummary [some t1, some t2]).length = 6 := by
  intro t1 t2 h1 h2
  have hd : folderDataRows [some t1, some t2] = t1 ++ t2 := by
    show ([] ++ t1) ++ t2 = t1 ++ t2
    rw [List.nil_append]
  refine ⟨hd, ?_, ?_⟩
  · rw [hd, List.length_append, h1, h2]
  · rw [folderSummary, List.length_append, hd, List.length_append, h1, h2]
    rfl

/-- Witness for the amended C8 at the concrete tables. -/
theorem C8_folder_aggregation_witness :
    folderDataRows [some exT1, some exT2] = exT1 ++ exT2 ∧
    (folderDataRows [some exT1, some exT2]).length = 5 ∧
    (folderSummary [some exT1, some exT2]).length = 6 :=
  C8_folder_aggregation_amended exT1 exT2 rfl rfl

/-- Claim C10: an image whose surviving ROI set is empty produces no per
image CSV, and the folder aggregation, which never fails, silently skips
the missing CSV, so the image contributes zero rows to the summary. -/
theorem C10_empty_image_skipped :
    (∀ rows : List CsvRow, savedCsv 0 rows = none) ∧
    (∀ (pre post : List (Option (List CsvRow))),
      folderDataRows (pre ++ none :: post) = folderDataRows (pre ++ post)) := by
  constructor
  · intro rows
    rfl
  · intro pre post
    unfold folderDataRows
    rw [List.foldl_append, List.foldl_append, List.foldl_cons]

/-- Witness for C10: no CSV for a zero ROI image, and a missing CSV slot
between two saved tables changes nothing in the aggregated rows. -/
theorem C10_empty_image_skipped_witness :
    savedCsv 0 exT1 = none ∧
    folderDataRows [some exT1, none, some exT2] =
      folderDataRows [some exT1, some exT2] :=
  ⟨C10_empty_image_skipped.1 exT1,
   C10_empty_image_skipped.2 [some exT1] [some exT2]⟩

/-! ### Batch loop lemmas -/

lemma runBatch_append (m : Bool) : ∀ (pre rest : List ImageFile) (tr : BatchTrace),
    runBatch m (pre ++ rest) tr =
      (match runBatch m pre tr with
       | (tr1, none) => runBatch m rest tr1
       | (tr1, some e) => (tr1, some e)) := by
  intro pre
  induction pre with
  | nil =>
    intro rest tr
    rfl
  | cons f fs ih =>
    intro rest tr
    rw [List.cons_append]
    cases hI : isImageName f.name with
    | false =>
      simp only [runBatch, hI]
      exact ih rest tr
    | true =>
      cases hL : f.loadsOk with
      | false => simp [runBatch, hI, hL]
      | true =>
        cases m with
        | false => simp [runBatch, hI, hL]
        | true =>
          simp only [runBatch, hI, hL]
          exact ih rest _

lemma runBatch_skip (m : Bool) : ∀ (files : List ImageFile) (tr : BatchTrace),
    (∀ g ∈ files, isImageName g.name = false) →
    runBatch m files tr = (tr, none) := by
  intro files
  induction files with
  | nil => intro tr _; rfl
  | cons f fs ih =>
    intro tr h
    have hI : isImageName f.name = false := h f (List.mem_cons_self f fs)
    simp only [runBatch, hI]
    exact ih tr (fun g hg => h g (List.mem_cons_of_mem f hg))

lemma runBatch_allOk : ∀ (files : List ImageFile) (tr : BatchTrace),
    (∀ g ∈ files, isImageName g.name = true → g.loadsOk = true) →
    runBatch true files tr =
      (BatchTrace.mk (tr.modelChecks + (imageFiles files).length)
        (tr.classifications + (imageFiles files).length)
        (tr.processed ++ imageNames files), none) := by
  intro files
  induction files with
  | nil =>
    intro tr _
    simp [runBatch, imageFiles, imageNames]
  | cons f fs ih =>
    intro tr h
    cases hI : isImageName f.name with
    | false =>
      simp only [runBatch, hI]
      rw [ih tr (fun g hg hgi => h g (List.mem_cons_of_mem f hg) hgi)]
      simp [imageFiles, imageNames, List.filter_cons, hI]
    | true =>
      have hL : f.loadsOk = true := h f (List.mem_cons_self f fs) hI
      simp only [runBatch, hI, hL]
      rw [ih _ (fun g hg hgi => h g (List.mem_cons_of_mem f hg) hgi)]
      simp only [imageFiles, imageNames, List.filter_cons, hI, if_true]
      refine congrArg (fun t => (t, none)) ?_
      have hmc : tr.modelChecks + 1 + (List.filter (fun g => isImageName g.name) fs).length =
          tr.modelChecks + (f :: List.filter (fun g => isImageName g.name) fs).length := by
        simp
        omega
      simp [List.append_assoc]
      omega

/-- Claim C3 counterexample: with the model artifact present and two
loadable image files in the folder, the model existence assertion of
line 172 runs twice, once per image, refuting that it is checked exactly
once per batch run. -/
theorem C3_model_check_counterexample :
    runBatch true [exGood, exB] initTrace =
      (BatchTrace.mk 2 2 ["a.tif", "b.tif"], none) := by
  decide

/-- Claim C3 amended: the model existence assertion runs once per image
file, inside the per file loop; when the model artifact is missing the
run aborts at the first image file with the assertion error after
exactly one check and before any classification work. -/
theorem C3_model_check_amended :
    (∀ (files : List ImageFile),
      (∀ g ∈ files, isImageName g.name = true → g.loadsOk = true) →
      (runBatch true files initTrace).1.modelChecks = (imageFiles files).length) ∧
    (∀ (pre : List ImageFile) (f : ImageFile) (post : List ImageFile),
      (∀ g ∈ pre, isImageName g.name = false) →
      isImageName f.name = true → f.loadsOk = true →
      runBatch false (pre ++ f :: post) initTrace =
        (BatchTrace.mk 1 0 [], some BatchError.modelMissing)) := by
  constructor
  · intro files h
    rw [runBatch_allOk files initTrace h]
    simp [initTrace]
  · intro pre f post hpre hI hL
    rw [runBatch_append]
    rw [runBatch_skip false pre initTrace hpre]
    show runBatch false (f :: post) initTrace = _
    simp [runBatch, hI, hL, initTrace]

/-- Witness for the amended C3: two image files give two checks with the
model present, and a missing model aborts after one check with no
classification, with a non image file first in the folder listing. -/
theorem C3_model_check_witness :
    (runBatch true [exGood, exB] initTrace).1.modelChecks =
      (imageFiles [exGood, exB]).length ∧
    runBatch false [exDoc, exGood, exB] initTrace =
      (BatchTrace.mk 1 0 [], some BatchError.modelMissing) :=
  ⟨C3_model_check_amended.1 [exGood, exB] (by decide),
   C3_model_check_amended.2 [exDoc] exGood [exB] (by decide) (by decide) (by decide)⟩

/-- Claim C9: an image file from which zero images open aborts the whole
batch at that file with the visible failure notice naming it; the files
before it are fully processed, the corrupt file is not skipped and no
later file is processed. -/
theorem C9_abort_on_load_failure :
    ∀ (pre : List ImageFile) (bad : ImageFile) (post : List ImageFile),
      (∀ g ∈ pre, isImageName g.name = true → g.loadsOk = true) →
      isImageName bad.name = true → bad.loadsOk = false →
      runBatch true (pre ++ bad :: post) initTrace =
        (BatchTrace.mk (imageFiles pre).length (imageFiles pre).length
          (imageNames pre), some (BatchError.loadFailed bad.name)) := by
  intro pre bad post hpre hbI hbL
  rw [runBatch_append]
  rw [runBatch_allOk pre initTrace hpre]
  show runBatch true (bad :: post) _ = _
  simp [runBatch, hbI, hbL, initTrace]

/-- Witness for C9: one good image file, then a corrupt one, then a
further file; the run aborts naming the corrupt file and only the first
file is processed. -/
theorem C9_abort_on_load_failure_witness :
    runBatch true [exGood, exBad, exAfter] initTrace =
      (BatchTrace.mk (imageFiles [exGood]).length (imageFiles [exGood]).length
        (imageNames [exGood]), some (BatchError.loadFailed exBad.name)) :=
  C9_abort_on_load_failure [exGood] exBad [exAfter] (by decide) (by decide)
    (by decide)
